import Mathlib

/-!
# streamserver: the check cycle and the live/offline edge detector

A shallow embedding of `server.go` (`Server`, `NewServer`, the setters, `check`,
`GetLiveStreams`, `doStreamStatusCallbacks`) together with theorems about it.

Modelling conventions.

* Go pointers that the code compares with `nil` are `Option`s; dereferencing a `nil`
  pointer is the fault `Fault.nilPointerDereference`, which ends the run (the program has
  no `recover`).
* The calls into the `libstreams` package and the clock are inputs of one cycle, gathered
  in `World`.  A call that returns `(value, err)` is a `Reply`: both components are kept,
  because the code decides what it does with the value.
* `map[string]ls.StreamData` is an association list with unique keys (`AList`).  Go leaves
  the iteration order of a map unspecified; the model iterates in the order of the entries
  and the theorems about callbacks are stated per key, so they do not depend on the order.
* A registered callback is a flag; calling it is recorded as an `Event` that carries the
  loop's key next to the record that was passed.  Calls into the gateway are recorded as
  events too.  Logging is not modelled.
* `strings.ToLower` is a parameter `ToLower` of the functions that use it, so the general
  theorems hold for every normalisation function; `asciiToLower` is used on concrete inputs.
-/

namespace Streamserver

/-! ## Data of the `libstreams` package, as far as `server.go` uses it -/

/-- An access token: the fields `server.go` relies on. -/
structure Token where
  AccessToken : String
  ExpiresAt : Nat
  deriving DecidableEq, Repr

/-- Modelled from the spec: the library method `IsExpired` is not part of the sources;
the spec gives it as true when `now + skew >= expiryInstant`. -/
def Token.IsExpired (t : Token) (now skew : Nat) : Bool :=
  decide (t.ExpiresAt ≤ now + skew)

/-- The value behind `*ls.AuthData`. -/
structure AuthData where
  AppAccessToken : Option Token
  UserAccessToken : Option Token
  ClientID : String
  UserID : String
  deriving DecidableEq, Repr

/-- The value behind `*ls.TwitchFollows`: the followed identities. -/
structure TwitchFollows where
  Data : List String
  deriving DecidableEq, Repr

/-- One live record of the primary provider; the key of the record is `UserName`. -/
structure TwitchStreamData where
  UserName : String
  Title : String
  ViewerCount : Nat
  deriving DecidableEq, Repr

/-- One live record of the secondary provider; the key of the record is `Channel`. -/
structure StrimsStreamData where
  Channel : String
  Title : String
  Viewers : Nat
  deriving DecidableEq, Repr

/-- The value behind `*ls.TwitchStreams`. -/
structure TwitchStreams where
  Data : List TwitchStreamData
  deriving DecidableEq, Repr

/-- The value behind `*ls.StrimsStreams`. -/
structure StrimsStreams where
  Data : List StrimsStreamData
  deriving DecidableEq, Repr

/-- The interface value `ls.StreamData`: a pointer to a record of one of the two lists. -/
inductive StreamData where
  | strims (d : StrimsStreamData)
  | twitch (d : TwitchStreamData)
  deriving DecidableEq, Repr

/-- The value behind `*ls.Streams`; both lists are pointers and start out `nil`. -/
structure Streams where
  Strims : Option StrimsStreams
  Twitch : Option TwitchStreams
  LastFetched : Nat
  RefreshInterval : Nat
  deriving DecidableEq, Repr

/-! ## Errors, faults, events -/

/-- The errors a gateway call can return, as the code tells them apart with `errors.Is`. -/
inductive GatewayError where
  | deadlineExceeded
  | unauthorized
  | other (msg : String)
  deriving DecidableEq, Repr

/-- The errors `GetLiveStreams` and `check` return. -/
inductive Error where
  | gateway (e : GatewayError)
  | followsUnavailable
  deriving DecidableEq, Repr

/-- A runtime panic. -/
inductive Fault where
  | nilPointerDereference
  deriving DecidableEq, Repr

/-- What a cycle does to the outside: gateway calls and callback calls. -/
inductive Event where
  | fetchAppAccessToken
  | refreshUserAccessToken
  | getTwitchFollows
  | getLiveTwitchStreams
  | getLiveStrimsStreams
  | onLive (user : String) (data : StreamData)
  | onOffline (user : String) (data : StreamData)
  deriving DecidableEq, Repr

/-- The map key of a callback event, `none` for a gateway call. -/
def Event.user : Event → Option String
  | .onLive user _ => some user
  | .onOffline user _ => some user
  | _ => none

/-- Whether the event is a call of `onLive` or `onOffline`. -/
def Event.isCallback (e : Event) : Bool := e.user.isSome

/-- Whether the event is one of the two stream fetches. -/
def Event.isStreamFetch : Event → Bool
  | .getLiveTwitchStreams => true
  | .getLiveStrimsStreams => true
  | _ => false

/-- The callback events of a trace that were fired for the key `k`. -/
def eventsFor (k : String) (trace : List Event) : List Event :=
  trace.filter (fun e => decide (e.user = some k))

/-- The result pair `(value, err)` of a gateway call. -/
structure Reply (α : Type) where
  val : Option α
  err : Option GatewayError

/-- The inputs of one check cycle: clock readings and the results of the gateway calls. -/
structure World where
  nowApp : Nat
  nowUser : Nat
  nowFollows : Nat
  FetchAppAccessToken : Except GatewayError Token
  RefreshUserAccessToken : Except GatewayError Token
  GetTwitchFollows : Reply TwitchFollows
  GetLiveTwitchStreams : Reply TwitchStreams
  GetLiveStrimsStreams : Reply StrimsStreams
  timeNow : Nat

/-! ## The server -/

/-- The type `map[string]ls.StreamData`. -/
abbrev LiveMap := AList (fun _ : String => StreamData)

/-- The fields of `Server` that `check` reads or writes. -/
structure Server where
  authData : Option AuthData
  follows : Option TwitchFollows
  hasInitStreams : Bool
  lives : LiveMap
  onLive : Bool
  onOffline : Bool
  redirectUri : String
  addr : String
  streams : Streams
  timer : Nat
  strimsEnabled : Bool

/-- What a function that returned leaves behind: the state, its error, the events. -/
structure Outcome where
  bg : Server
  err : Option Error
  trace : List Event

def NewServer : Server where
  authData := none
  follows := none
  hasInitStreams := false
  lives := ∅
  onLive := false
  onOffline := false
  redirectUri := ""
  addr := ""
  streams := { Strims := none, Twitch := none, LastFetched := 0, RefreshInterval := 0 }
  timer := 0
  strimsEnabled := false

def Server.SetAddress (bg : Server) (address : String) : Server :=
  { bg with addr := address }

def Server.SetAuthData (bg : Server) (ad : AuthData) : Server :=
  { bg with authData := some ad }

def Server.SetInterval (bg : Server) (timer : Nat) : Server :=
  { bg with timer := timer, streams := { bg.streams with RefreshInterval := timer } }

/-- The argument `f` is whether the function passed is not `nil`. -/
def Server.SetLiveCallback (bg : Server) (f : Bool) : Server :=
  { bg with onLive := f }

/-- The argument `f` is whether the function passed is not `nil`. -/
def Server.SetOfflineCallback (bg : Server) (f : Bool) : Server :=
  { bg with onOffline := f }

def Server.SetRedirect (bg : Server) (redirectUri : String) : Server :=
  { bg with redirectUri := redirectUri }

def Server.EnableStrims (bg : Server) (enable : Bool) : Server :=
  { bg with strimsEnabled := enable }

/-- The normalisation used on concrete inputs: `strings.ToLower` on ASCII text. -/
def asciiToLower (s : String) : String := String.mk (s.data.map Char.toLower)

/-! ## `doStreamStatusCallbacks` -/

/-- The two loops that fill `newLives`: first the Strims records, then the Twitch records. -/
def newLivesOf (ToLower : String → String) (strims : StrimsStreams) (twitch : TwitchStreams) :
    LiveMap :=
  twitch.Data.foldl (fun m v => m.insert (ToLower v.UserName) (StreamData.twitch v))
    (strims.Data.foldl (fun m v => m.insert (ToLower v.Channel) (StreamData.strims v)) ∅)

/-- The loop over `newLives` that calls `onLive` for the keys missing from `lives`. -/
def liveCalls (lives newLives : LiveMap) : List Event :=
  newLives.entries.filterMap fun e =>
    if (lives.lookup e.1).isNone then some (Event.onLive e.1 e.2) else none

/-- The loop over `lives` that calls `onOffline` for the keys missing from `newLives`. -/
def offlineCalls (lives newLives : LiveMap) : List Event :=
  lives.entries.filterMap fun e =>
    if (newLives.lookup e.1).isNone then some (Event.onOffline e.1 e.2) else none

/-- The method `Server.doStreamStatusCallbacks`.  Reading `.Data` of a `nil` list panics. -/
def doStreamStatusCallbacks (ToLower : String → String) (bg : Server) :
    Except Fault (Server × List Event) :=
  match bg.streams.Strims with
  | none => .error .nilPointerDereference
  | some strims =>
    match bg.streams.Twitch with
    | none => .error .nilPointerDereference
    | some twitch =>
      let newLives := newLivesOf ToLower strims twitch
      if bg.hasInitStreams then
        .ok ({ bg with lives := newLives },
          (if bg.onLive then liveCalls bg.lives newLives else []) ++
          (if bg.onOffline then offlineCalls bg.lives newLives else []))
      else
        .ok ({ bg with hasInitStreams := true, lives := newLives }, [])

/-! ## `GetLiveStreams` -/

/-- Lines 286-298 of `server.go`: the follow-list fetch, attempted only with a user token
that is present and not expired.  `bg.follows = newFollows` is executed after every
outcome that does not return. -/
def fetchFollows (w : World) (bg : Server) (ad : AuthData) : Outcome :=
  match ad.UserAccessToken with
  | none => ⟨bg, none, []⟩
  | some ut =>
    if ut.IsExpired w.nowFollows bg.timer then ⟨bg, none, []⟩
    else
      match w.GetTwitchFollows.err with
      | some .deadlineExceeded =>
        ⟨{ bg with follows := w.GetTwitchFollows.val }, none, [.getTwitchFollows]⟩
      | some .unauthorized =>
        ⟨{ bg with authData := some { ad with UserAccessToken := none },
                   follows := w.GetTwitchFollows.val }, none, [.getTwitchFollows]⟩
      | some (.other msg) => ⟨bg, some (.gateway (.other msg)), [.getTwitchFollows]⟩
      | none => ⟨{ bg with follows := w.GetTwitchFollows.val }, none, [.getTwitchFollows]⟩

/-- Lines 319-333 of `server.go`: the Strims fetch when enabled, then `LastFetched`. -/
def fetchStrims (w : World) (bg : Server) (trace : List Event) : Outcome :=
  if bg.strimsEnabled then
    match w.GetLiveStrimsStreams.err with
    | some .deadlineExceeded =>
      ⟨{ bg with streams := { bg.streams with LastFetched := w.timeNow } }, none,
        trace ++ [.getLiveStrimsStreams]⟩
    | some e => ⟨bg, some (.gateway e), trace ++ [.getLiveStrimsStreams]⟩
    | none =>
      ⟨{ bg with streams := { bg.streams with Strims := w.GetLiveStrimsStreams.val,
                                              LastFetched := w.timeNow } }, none,
        trace ++ [.getLiveStrimsStreams]⟩
  else
    ⟨{ bg with streams := { bg.streams with LastFetched := w.timeNow } }, none, trace⟩

/-- Lines 306-333 of `server.go`: the Twitch fetch, whose first argument reads the access
value of the app token, followed by the Strims part. -/
def fetchStreams (w : World) (bg : Server) (trace : List Event) : Except Fault Outcome :=
  match bg.authData with
  | none => .error .nilPointerDereference
  | some ad =>
    match ad.AppAccessToken with
    | none => .error .nilPointerDereference
    | some _ =>
      match w.GetLiveTwitchStreams.err with
      | some .deadlineExceeded => .ok (fetchStrims w bg (trace ++ [.getLiveTwitchStreams]))
      | some .unauthorized =>
        .ok (fetchStrims w { bg with authData := some { ad with AppAccessToken := none } }
          (trace ++ [.getLiveTwitchStreams]))
      | some (.other msg) =>
        .ok ⟨bg, some (.gateway (.other msg)), trace ++ [.getLiveTwitchStreams]⟩
      | none =>
        .ok (fetchStrims w
          { bg with streams := { bg.streams with Twitch := w.GetLiveTwitchStreams.val } }
          (trace ++ [.getLiveTwitchStreams]))

/-- The method `Server.GetLiveStreams`. -/
def GetLiveStreams (refreshFollows : Bool) (w : World) (bg : Server) : Except Fault Outcome :=
  if bg.follows.isNone || refreshFollows then
    match bg.authData with
    | none => .error .nilPointerDereference
    | some ad =>
      let r := fetchFollows w bg ad
      match r.err with
      | some e => .ok ⟨r.bg, some e, r.trace⟩
      | none =>
        if r.bg.follows.isNone then .ok ⟨r.bg, some .followsUnavailable, r.trace⟩
        else fetchStreams w r.bg r.trace
  else
    fetchStreams w bg []

/-! ## `check` -/

/-- Modelled from the spec: the library method `AuthData.FetchAppAccessToken` is not part
of the sources; a successful fetch stores the new app token, a failed fetch leaves the
prior (possibly absent or expired) token in place and returns the error. -/
def AuthData.FetchAppAccessToken (ad : AuthData) (reply : Except GatewayError Token) :
    AuthData × Option GatewayError :=
  match reply with
  | .ok t => ({ ad with AppAccessToken := some t }, none)
  | .error e => (ad, some e)

/-- Modelled from the spec: the library method `AuthData.RefreshUserAccessToken` is not
part of the sources; on success it replaces the user token, on failure it leaves the
token and returns the error. -/
def AuthData.RefreshUserAccessToken (ad : AuthData) (reply : Except GatewayError Token) :
    AuthData × Option GatewayError :=
  match reply with
  | .ok t => ({ ad with UserAccessToken := some t }, none)
  | .error e => (ad, some e)

/-- Lines 146-149 of `server.go`: the app token is fetched when it is absent or expired;
the error of `FetchAppAccessToken` is dropped. -/
def refreshAppAccessToken (w : World) (bg : Server) (ad : AuthData) : AuthData × List Event :=
  if (match ad.AppAccessToken with
      | none => true
      | some t => t.IsExpired w.nowApp bg.timer) then
    ((ad.FetchAppAccessToken w.FetchAppAccessToken).1, [.fetchAppAccessToken])
  else (ad, [])

/-- Lines 150-159 of `server.go`: the refresh of a present and expired user token;
Unauthorized clears the token, any other error is returned. -/
def refreshUserAccessToken (w : World) (bg : Server) (ad : AuthData) :
    AuthData × Option Error × List Event :=
  match ad.UserAccessToken with
  | none => (ad, none, [])
  | some ut =>
    if ut.IsExpired w.nowUser bg.timer then
      match (ad.RefreshUserAccessToken w.RefreshUserAccessToken).2 with
      | some .unauthorized =>
        ({ (ad.RefreshUserAccessToken w.RefreshUserAccessToken).1 with
            UserAccessToken := none }, none, [.refreshUserAccessToken])
      | some e =>
        ((ad.RefreshUserAccessToken w.RefreshUserAccessToken).1, some (.gateway e),
          [.refreshUserAccessToken])
      | none =>
        ((ad.RefreshUserAccessToken w.RefreshUserAccessToken).1, none,
          [.refreshUserAccessToken])
    else (ad, none, [])

/-- The method `Server.check`. -/
def check (ToLower : String → String) (refreshFollows : Bool) (w : World) (bg : Server) :
    Except Fault Outcome :=
  match bg.authData with
  | none => .error .nilPointerDereference
  | some ad =>
    let a := refreshAppAccessToken w bg ad
    let u := refreshUserAccessToken w bg a.1
    let bg1 : Server := { bg with authData := some u.1 }
    match u.2.1 with
    | some e => .ok ⟨bg1, some e, a.2 ++ u.2.2⟩
    | none =>
      match GetLiveStreams refreshFollows w bg1 with
      | .error f => .error f
      | .ok r =>
        match r.err with
        | some .followsUnavailable => .ok ⟨r.bg, none, a.2 ++ u.2.2 ++ r.trace⟩
        | some e => .ok ⟨r.bg, some e, a.2 ++ u.2.2 ++ r.trace⟩
        | none =>
          if r.bg.onLive || r.bg.onOffline then
            match doStreamStatusCallbacks ToLower r.bg with
            | .error f => .error f
            | .ok (bg2, calls) => .ok ⟨bg2, none, a.2 ++ u.2.2 ++ r.trace ++ calls⟩
          else .ok ⟨r.bg, none, a.2 ++ u.2.2 ++ r.trace⟩

/-! ## Vocabulary of the statements -/

/-- The name a record is keyed by, before normalisation. -/
def StreamData.name : StreamData → String
  | .strims d => d.Channel
  | .twitch d => d.UserName

/-- The records of a snapshot, as the interface values the index stores. -/
def recordsOf (strims : StrimsStreams) (twitch : TwitchStreams) : List StreamData :=
  strims.Data.map StreamData.strims ++ twitch.Data.map StreamData.twitch

/-- The normalised keys of a snapshot. -/
def keysOf (ToLower : String → String) (strims : StrimsStreams) (twitch : TwitchStreams) :
    List String :=
  strims.Data.map (fun v => ToLower v.Channel) ++ twitch.Data.map (fun v => ToLower v.UserName)

/-- The state `bg` with the two record lists of its snapshot replaced, as a successful
fetch of both providers leaves it. -/
def Server.withSnapshot (bg : Server) (strims : StrimsStreams) (twitch : TwitchStreams) :
    Server :=
  { bg with streams := { bg.streams with Strims := some strims, Twitch := some twitch } }

/-- The two token steps of `check` (lines 146-159 of `server.go`) in sequence: the auth
data they leave, the error of the user-token step, and their events. -/
def tokenSteps (w : World) (bg : Server) (ad : AuthData) :
    AuthData × Option Error × List Event :=
  refreshUserAccessToken w bg (refreshAppAccessToken w bg ad).1

/-! ## Concrete inputs -/

def recA : TwitchStreamData := ⟨"A", "first", 10⟩
def recB : TwitchStreamData := ⟨"B", "second", 20⟩
def recB2 : TwitchStreamData := ⟨"B", "second, later", 25⟩
def recC : TwitchStreamData := ⟨"C", "third", 30⟩

/-- A server with both callbacks, the baseline of the snapshot {A, B} and the new
snapshot {B, C}. -/
def serverAB_BC : Server :=
  { (NewServer.SetLiveCallback true).SetOfflineCallback true with
    hasInitStreams := true
    lives := newLivesOf asciiToLower ⟨[]⟩ ⟨[recA, recB]⟩
    streams := { Strims := some ⟨[]⟩, Twitch := some ⟨[recB2, recC]⟩,
                 LastFetched := 5, RefreshInterval := 0 } }

def rec1 : TwitchStreamData := ⟨"alice", "morning", 3⟩
def rec1b : TwitchStreamData := ⟨"ALICE", "evening", 4⟩

/-- A server with both callbacks whose snapshot holds the one primary record "alice". -/
def serverAlice : Server :=
  { (NewServer.SetLiveCallback true).SetOfflineCallback true with
    streams := { Strims := some ⟨[]⟩, Twitch := some ⟨[rec1]⟩,
                 LastFetched := 5, RefreshInterval := 0 } }

def recFooTwitch : TwitchStreamData := ⟨"Foo", "on twitch", 7⟩
def recFooStrims : StrimsStreamData := ⟨"foo", "on strims", 9⟩

/-- A server with both callbacks whose snapshot holds "Foo" on the primary provider and
"foo" on the secondary one. -/
def serverCollision : Server :=
  { (NewServer.SetLiveCallback true).SetOfflineCallback true with
    streams := { Strims := some ⟨[recFooStrims]⟩, Twitch := some ⟨[recFooTwitch]⟩,
                 LastFetched := 5, RefreshInterval := 0 } }

/-- The running server of the collision snapshot: a baseline is established and empty. -/
def serverCollisionRunning : Server :=
  { serverCollision with hasInitStreams := true }

/-- The state after the edge detector has run on `serverCollisionRunning`. -/
def serverCollisionAfter : Server :=
  { serverCollisionRunning with
    lives := newLivesOf asciiToLower ⟨[recFooStrims]⟩ ⟨[recFooTwitch]⟩ }

def tokApp : Token := ⟨"app-1", 1000⟩
def tokUser : Token := ⟨"user-1", 1000⟩
def tokUserOld : Token := ⟨"user-0", 50⟩
def tokFresh : Token := ⟨"fresh", 2000⟩
def adValid : AuthData := ⟨some tokApp, some tokUser, "client", "4711"⟩
def followsX : TwitchFollows := ⟨["alice", "foo"]⟩

/-- A cycle in which every gateway call succeeds. -/
def worldOk : World where
  nowApp := 100
  nowUser := 100
  nowFollows := 100
  FetchAppAccessToken := .ok tokFresh
  RefreshUserAccessToken := .ok tokFresh
  GetTwitchFollows := ⟨some followsX, none⟩
  GetLiveTwitchStreams := ⟨some ⟨[rec1]⟩, none⟩
  GetLiveStrimsStreams := ⟨some ⟨[recFooStrims]⟩, none⟩
  timeNow := 101

/-- A cycle in which the primary fetch times out. -/
def worldPrimaryTimeout : World :=
  { worldOk with GetLiveTwitchStreams := ⟨none, some .deadlineExceeded⟩ }

/-- A cycle in which the follow-list fetch times out and returns no value. -/
def worldFollowsTimeout : World :=
  { worldOk with GetTwitchFollows := ⟨none, some .deadlineExceeded⟩ }

/-- A cycle in which the refresh of the user token is refused. -/
def worldRefreshUnauthorized : World :=
  { worldOk with RefreshUserAccessToken := .error .unauthorized }

/-- A cycle in which the fetch of the app token fails. -/
def worldAppFetchFails : World :=
  { worldOk with FetchAppAccessToken := .error (.other "connection refused") }

/-- The server as `main` configures it: no callback is registered. -/
def serverMain : Server :=
  ((((NewServer.SetAddress "http://0.0.0.0:8181").SetAuthData adValid).SetInterval 300).SetRedirect
    "http://localhost:8181/oauth-callback").EnableStrims true

/-- The configured server with a live callback registered. -/
def serverWithCallback : Server := serverMain.SetLiveCallback true

/-- The configured server with a live callback and the secondary provider disabled. -/
def serverNoStrims : Server := (serverMain.EnableStrims false).SetLiveCallback true

/-- The configured server after some cycles: follow set and snapshot are stored. -/
def serverRunning : Server :=
  { serverMain with
    follows := some followsX
    streams := { Strims := some ⟨[recFooStrims]⟩, Twitch := some ⟨[recA]⟩,
                 LastFetched := 90, RefreshInterval := 300 } }

/-- A cycle in which the primary fetch is refused. -/
def worldPrimaryUnauthorized : World :=
  { worldOk with GetLiveTwitchStreams := ⟨none, some .unauthorized⟩ }

/-- The configured server with an expired user token and no follow set. -/
def serverExpiredUser : Server :=
  serverMain.SetAuthData { adValid with UserAccessToken := some tokUserOld }

/-- The configured server with a live callback and an expired user token. -/
def serverExpiredUserCallback : Server := serverExpiredUser.SetLiveCallback true

/-- The running server after a refused primary fetch has cleared the app token. -/
def serverNoAppToken : Server :=
  serverRunning.SetAuthData { adValid with AppAccessToken := none }

/-- Folding insertions into a map: the keys afterwards. -/
theorem mem_foldl_insert {α : Type} (key : α → String) (val : α → StreamData) (l : List α)
    (m : LiveMap) (k : String) :
    k ∈ l.foldl (fun m v => m.insert (key v) (val v)) m ↔ k ∈ m ∨ k ∈ l.map key := by
  induction l generalizing m with
  | nil => simp
  | cons v l ih =>
    simp only [List.foldl_cons, ih, AList.mem_insert, List.map_cons, List.mem_cons]
    tauto

/-- Folding insertions into a map: a key none of the inserted records has keeps its value. -/
theorem lookup_foldl_insert_of_not_mem {α : Type} (key : α → String) (val : α → StreamData)
    (l : List α) (m : LiveMap) (k : String) (h : k ∉ l.map key) :
    (l.foldl (fun m v => m.insert (key v) (val v)) m).lookup k = m.lookup k := by
  induction l generalizing m with
  | nil => rfl
  | cons v l ih =>
    simp only [List.map_cons, List.mem_cons, not_or] at h
    rw [List.foldl_cons, ih _ h.2, AList.lookup_insert_ne h.1]

/-- Folding insertions into a map: a key some inserted record has is mapped to one of the
inserted records with that key. -/
theorem lookup_foldl_insert_of_mem {α : Type} (key : α → String) (val : α → StreamData)
    (l : List α) (m : LiveMap) (k : String) (h : k ∈ l.map key) :
    ∃ v, v ∈ l ∧ key v = k ∧
      (l.foldl (fun m v => m.insert (key v) (val v)) m).lookup k = some (val v) := by
  induction l generalizing m with
  | nil => simp at h
  | cons v l ih =>
    by_cases hk : k ∈ l.map key
    · obtain ⟨v', hv', hkey, hl⟩ := ih (m.insert (key v) (val v)) hk
      exact ⟨v', List.mem_cons_of_mem _ hv', hkey, hl⟩
    · have hv : key v = k := by
        simp only [List.map_cons, List.mem_cons] at h
        rcases h with h | h
        · exact h.symm
        · exact absurd h hk
      refine ⟨v, List.mem_cons_self _ _, hv, ?_⟩
      rw [List.foldl_cons, lookup_foldl_insert_of_not_mem key val l _ k hk, ← hv,
        AList.lookup_insert]

/-- The keys of the new index are the normalised names of the records of both lists. -/
theorem mem_newLivesOf (ToLower : String → String) (strims : StrimsStreams)
    (twitch : TwitchStreams) (k : String) :
    k ∈ newLivesOf ToLower strims twitch ↔
      k ∈ strims.Data.map (fun v => ToLower v.Channel) ∨
      k ∈ twitch.Data.map (fun v => ToLower v.UserName) := by
  unfold newLivesOf
  rw [mem_foldl_insert (fun v : TwitchStreamData => ToLower v.UserName) StreamData.twitch,
    mem_foldl_insert (fun v : StrimsStreamData => ToLower v.Channel) StreamData.strims]
  simp

/-- The events a loop over the entries of a map fires for one key. -/
theorem eventsFor_filterMap (f : (Σ _ : String, StreamData) → Option Event)
    (hf : ∀ e ev, f e = some ev → ev.user = some e.1) (k : String) (m : LiveMap) :
    eventsFor k (m.entries.filterMap f) =
      match m.lookup k with
      | some v => (f ⟨k, v⟩).toList
      | none => [] := by
  obtain ⟨l, hl⟩ := m
  simp only [AList.lookup]
  induction l with
  | nil => simp [eventsFor]
  | cons e l ih =>
    obtain ⟨a, b⟩ := e
    have hnd := List.nodupKeys_cons.1 hl
    have ih := ih hnd.2
    by_cases hak : a = k
    · subst hak
      have hnone : List.dlookup a l = none := List.dlookup_eq_none.2 hnd.1
      rw [hnone] at ih
      simp only [List.dlookup_cons_eq]
      cases hfe : f ⟨a, b⟩ with
      | none =>
        rw [List.filterMap_cons_none hfe]
        simpa using ih
      | some ev =>
        rw [List.filterMap_cons_some hfe]
        have := hf _ _ hfe
        simp only [eventsFor] at ih ⊢
        simp [List.filter_cons, this, ih]
    · rw [List.dlookup_cons_ne _ _ (Ne.symm hak)]
      cases hfe : f ⟨a, b⟩ with
      | none =>
        rw [List.filterMap_cons_none hfe]
        exact ih
      | some ev =>
        rw [List.filterMap_cons_some hfe]
        have := hf _ _ hfe
        simp only [eventsFor] at ih ⊢
        rw [List.filter_cons]
        simp only [this, Option.some.injEq, hak, decide_False, Bool.false_eq_true, ↓reduceIte]
        exact ih

/-- The events the `onLive` loop fires for one key. -/
theorem eventsFor_liveCalls (lives newLives : LiveMap) (k : String) :
    eventsFor k (liveCalls lives newLives) =
      match newLives.lookup k, lives.lookup k with
      | some r, none => [Event.onLive k r]
      | _, _ => [] := by
  unfold liveCalls
  rw [eventsFor_filterMap]
  · cases h1 : newLives.lookup k <;> cases h2 : lives.lookup k <;> simp [h2]
  · intro e ev h
    split at h
    · cases h; rfl
    · cases h

/-- The events the `onOffline` loop fires for one key. -/
theorem eventsFor_offlineCalls (lives newLives : LiveMap) (k : String) :
    eventsFor k (offlineCalls lives newLives) =
      match newLives.lookup k, lives.lookup k with
      | none, some r => [Event.onOffline k r]
      | _, _ => [] := by
  unfold offlineCalls
  rw [eventsFor_filterMap]
  · cases h1 : newLives.lookup k <;> cases h2 : lives.lookup k <;> simp [h1]
  · intro e ev h
    split at h
    · cases h; rfl
    · cases h

theorem eventsFor_append (k : String) (t1 t2 : List Event) :
    eventsFor k (t1 ++ t2) = eventsFor k t1 ++ eventsFor k t2 := by
  simp [eventsFor]

/-- What the new index holds for a key: a Twitch record with that key if there is one,
else a Strims record with that key if there is one, else nothing. -/
theorem lookup_newLivesOf (ToLower : String → String) (strims : StrimsStreams)
    (twitch : TwitchStreams) (k : String) :
    (k ∈ twitch.Data.map (fun v => ToLower v.UserName) →
      ∃ v, v ∈ twitch.Data ∧ ToLower v.UserName = k ∧
        (newLivesOf ToLower strims twitch).lookup k = some (StreamData.twitch v)) ∧
    (k ∉ twitch.Data.map (fun v => ToLower v.UserName) →
      k ∈ strims.Data.map (fun v => ToLower v.Channel) →
      ∃ v, v ∈ strims.Data ∧ ToLower v.Channel = k ∧
        (newLivesOf ToLower strims twitch).lookup k = some (StreamData.strims v)) ∧
    (k ∉ twitch.Data.map (fun v => ToLower v.UserName) →
      k ∉ strims.Data.map (fun v => ToLower v.Channel) →
      (newLivesOf ToLower strims twitch).lookup k = none) := by
  unfold newLivesOf
  refine ⟨fun h => ?_, fun h1 h2 => ?_, fun h1 h2 => ?_⟩
  · exact lookup_foldl_insert_of_mem (fun v : TwitchStreamData => ToLower v.UserName)
      StreamData.twitch _ _ k h
  · rw [lookup_foldl_insert_of_not_mem (fun v : TwitchStreamData => ToLower v.UserName)
      StreamData.twitch _ _ k h1]
    exact lookup_foldl_insert_of_mem (fun v : StrimsStreamData => ToLower v.Channel)
      StreamData.strims _ _ k h2
  · rw [lookup_foldl_insert_of_not_mem (fun v : TwitchStreamData => ToLower v.UserName)
      StreamData.twitch _ _ k h1,
      lookup_foldl_insert_of_not_mem (fun v : StrimsStreamData => ToLower v.Channel)
      StreamData.strims _ _ k h2]
    rfl

/-- Every entry of the new index is a record of the snapshot under its normalised name. -/
theorem lookup_newLivesOf_some (ToLower : String → String) (strims : StrimsStreams)
    (twitch : TwitchStreams) (k : String) (r : StreamData)
    (h : (newLivesOf ToLower strims twitch).lookup k = some r) :
    r ∈ recordsOf strims twitch ∧ ToLower r.name = k := by
  obtain ⟨h1, h2, h3⟩ := lookup_newLivesOf ToLower strims twitch k
  by_cases ht : k ∈ twitch.Data.map (fun v => ToLower v.UserName)
  · obtain ⟨v, hv, hk, hl⟩ := h1 ht
    rw [hl] at h
    cases h
    exact ⟨by simp [recordsOf, hv], hk⟩
  · by_cases hs : k ∈ strims.Data.map (fun v => ToLower v.Channel)
    · obtain ⟨v, hv, hk, hl⟩ := h2 ht hs
      rw [hl] at h
      cases h
      exact ⟨by simp [recordsOf, hv], hk⟩
    · rw [h3 ht hs] at h
      cases h

/-- The events of the two loops are callback calls. -/
theorem isCallback_of_mem_calls (lives newLives : LiveMap) (e : Event)
    (h : e ∈ liveCalls lives newLives ++ offlineCalls lives newLives) :
    e.isCallback = true := by
  simp only [liveCalls, offlineCalls, List.mem_append, List.mem_filterMap] at h
  rcases h with ⟨a, _, ha⟩ | ⟨a, _, ha⟩ <;>
  · split at ha
    · cases ha; rfl
    · cases ha

/-! ## The edge detector -/

/-- C1: with a baseline established and both callbacks registered, on a snapshot with both
record lists present `doStreamStatusCallbacks` returns, stores the new index (whose keys are
the normalised names of the snapshot) and, for every key, fires exactly `onLive` with the
new record when the key is in the new index and not in the baseline, exactly `onOffline`
with the baseline record when the key is in the baseline and not in the new index, and
nothing when the key is in both or in neither; it fires nothing but these callbacks. -/
theorem doStreamStatusCallbacks_set_difference (ToLower : String → String) (bg : Server)
    (strims : StrimsStreams) (twitch : TwitchStreams)
    (hS : bg.streams.Strims = some strims) (hT : bg.streams.Twitch = some twitch)
    (hInit : bg.hasInitStreams = true) (hLive : bg.onLive = true)
    (hOff : bg.onOffline = true) :
    ∃ bg1 trace, doStreamStatusCallbacks ToLower bg = .ok (bg1, trace) ∧
      bg1.lives = newLivesOf ToLower strims twitch ∧
      (∀ k, k ∈ bg1.lives ↔
        k ∈ strims.Data.map (fun v => ToLower v.Channel) ∨
        k ∈ twitch.Data.map (fun v => ToLower v.UserName)) ∧
      (∀ e ∈ trace, e.isCallback = true) ∧
      ∀ k, eventsFor k trace =
        match bg1.lives.lookup k, bg.lives.lookup k with
        | some r, none => [Event.onLive k r]
        | none, some r => [Event.onOffline k r]
        | _, _ => [] := by
  refine ⟨{ bg with lives := newLivesOf ToLower strims twitch },
    liveCalls bg.lives (newLivesOf ToLower strims twitch) ++
      offlineCalls bg.lives (newLivesOf ToLower strims twitch), ?_, rfl, ?_, ?_, ?_⟩
  · simp [doStreamStatusCallbacks, hS, hT, hInit, hLive, hOff]
  · exact mem_newLivesOf ToLower strims twitch
  · exact isCallback_of_mem_calls _ _
  · intro k
    rw [eventsFor_append, eventsFor_liveCalls, eventsFor_offlineCalls]
    cases (newLivesOf ToLower strims twitch).lookup k <;> cases bg.lives.lookup k <;> rfl

/-- C1, at the snapshots prev = {A, B} and next = {B, C}: the run fires exactly
`onLive` for C and `onOffline` for A. -/
theorem doStreamStatusCallbacks_set_difference_witness :
    (serverAB_BC.streams.Strims = some ⟨[]⟩ ∧ serverAB_BC.streams.Twitch = some ⟨[recB2, recC]⟩ ∧
      serverAB_BC.hasInitStreams = true ∧ serverAB_BC.onLive = true ∧
      serverAB_BC.onOffline = true) ∧
    (∃ bg1 trace, doStreamStatusCallbacks asciiToLower serverAB_BC = .ok (bg1, trace) ∧
      bg1.lives = newLivesOf asciiToLower ⟨[]⟩ ⟨[recB2, recC]⟩ ∧
      (∀ k, k ∈ bg1.lives ↔
        k ∈ (⟨[]⟩ : StrimsStreams).Data.map (fun v => asciiToLower v.Channel) ∨
        k ∈ (⟨[recB2, recC]⟩ : TwitchStreams).Data.map (fun v => asciiToLower v.UserName)) ∧
      (∀ e ∈ trace, e.isCallback = true) ∧
      ∀ k, eventsFor k trace =
        match bg1.lives.lookup k, serverAB_BC.lives.lookup k with
        | some r, none => [Event.onLive k r]
        | none, some r => [Event.onOffline k r]
        | _, _ => []) ∧
    (doStreamStatusCallbacks asciiToLower serverAB_BC).map Prod.snd =
      .ok [Event.onLive "c" (.twitch recC), Event.onOffline "a" (.twitch recA)] :=
  ⟨⟨rfl, rfl, rfl, rfl, rfl⟩,
    doStreamStatusCallbacks_set_difference asciiToLower serverAB_BC ⟨[]⟩ ⟨[recB2, recC]⟩
      rfl rfl rfl rfl rfl, rfl⟩

/-- The `onLive` loop fires nothing when every key of the new index is in the baseline. -/
theorem liveCalls_eq_nil (lives newLives : LiveMap) (h : ∀ k, k ∈ newLives → k ∈ lives) :
    liveCalls lives newLives = [] := by
  unfold liveCalls
  rw [List.filterMap_eq_nil_iff]
  intro e he
  have hk : e.1 ∈ newLives := by
    rw [AList.mem_keys, AList.keys, List.keys]
    exact List.mem_map_of_mem _ he
  have := AList.lookup_isSome.2 (h _ hk)
  cases hl : AList.lookup e.1 lives with
  | none => rw [hl] at this; cases this
  | some v => rfl

/-- The `onOffline` loop fires nothing when every key of the baseline is in the new index. -/
theorem offlineCalls_eq_nil (lives newLives : LiveMap) (h : ∀ k, k ∈ lives → k ∈ newLives) :
    offlineCalls lives newLives = [] := by
  unfold offlineCalls
  rw [List.filterMap_eq_nil_iff]
  intro e he
  have hk : e.1 ∈ lives := by
    rw [AList.mem_keys, AList.keys, List.keys]
    exact List.mem_map_of_mem _ he
  have := AList.lookup_isSome.2 (h _ hk)
  cases hl : AList.lookup e.1 newLives with
  | none => rw [hl] at this; cases this
  | some v => rfl

/-- A run on a snapshot with both lists present returns and stores the new index. -/
theorem doStreamStatusCallbacks_ok (ToLower : String → String) (bg : Server)
    (strims : StrimsStreams) (twitch : TwitchStreams)
    (hS : bg.streams.Strims = some strims) (hT : bg.streams.Twitch = some twitch) :
    ∃ trace, doStreamStatusCallbacks ToLower bg =
      .ok ({ bg with hasInitStreams := true, lives := newLivesOf ToLower strims twitch },
        trace) ∧
      trace = if bg.hasInitStreams then
          (if bg.onLive then liveCalls bg.lives (newLivesOf ToLower strims twitch) else []) ++
          (if bg.onOffline then offlineCalls bg.lives (newLivesOf ToLower strims twitch)
            else [])
        else [] := by
  cases hI : bg.hasInitStreams
  · exact ⟨[], by simp [doStreamStatusCallbacks, hS, hT, hI], by simp⟩
  · refine ⟨_, ?_, rfl⟩
    simp only [doStreamStatusCallbacks, hS, hT, hI, if_true]

/-- C3: identity matching is case-insensitive and the baseline is replaced on every run.
After a run on a first snapshot, a run on a second snapshot whose normalised identities
are those of the first (the identities differ at most in letter case) fires no callback
at all, and the baseline afterwards is the index of the second snapshot: it maps every
normalised key of the second snapshot to a record of the second snapshot whose
normalised name is that key. -/
theorem doStreamStatusCallbacks_case_insensitive (ToLower : String → String) (bg : Server)
    (s1 s2 : StrimsStreams) (t1 t2 : TwitchStreams)
    (hS : bg.streams.Strims = some s1) (hT : bg.streams.Twitch = some t1)
    (hcase : ∀ k, k ∈ keysOf ToLower s1 t1 ↔ k ∈ keysOf ToLower s2 t2) :
    ∃ bg1 trace1, doStreamStatusCallbacks ToLower bg = .ok (bg1, trace1) ∧
      ∃ bg2, doStreamStatusCallbacks ToLower (bg1.withSnapshot s2 t2) = .ok (bg2, []) ∧
        bg2.lives = newLivesOf ToLower s2 t2 ∧
        ∀ k, k ∈ keysOf ToLower s2 t2 →
          ∃ r, bg2.lives.lookup k = some r ∧ r ∈ recordsOf s2 t2 ∧ ToLower r.name = k := by
  obtain ⟨trace1, h1, -⟩ := doStreamStatusCallbacks_ok ToLower bg s1 t1 hS hT
  refine ⟨_, trace1, h1, ?_⟩
  have hkeys : ∀ k, k ∈ newLivesOf ToLower s1 t1 ↔ k ∈ newLivesOf ToLower s2 t2 := by
    intro k
    have := hcase k
    simp only [keysOf, List.mem_append] at this
    rw [mem_newLivesOf, mem_newLivesOf]
    exact this
  obtain ⟨trace2, h2, htr⟩ := doStreamStatusCallbacks_ok ToLower
    (Server.withSnapshot { bg with hasInitStreams := true, lives := newLivesOf ToLower s1 t1 }
      s2 t2) s2 t2 rfl rfl
  have hnil : trace2 = [] := by
    rw [htr]
    simp [Server.withSnapshot, liveCalls_eq_nil _ _ (fun k => (hkeys k).2),
      offlineCalls_eq_nil _ _ (fun k => (hkeys k).1)]
  rw [hnil] at h2
  refine ⟨_, h2, rfl, ?_⟩
  · intro k hk
    have hmem : k ∈ newLivesOf ToLower s2 t2 := by
      rw [mem_newLivesOf]
      simpa [keysOf] using hk
    cases hl : (newLivesOf ToLower s2 t2).lookup k with
    | none => exact absurd hmem (AList.lookup_eq_none.1 hl)
    | some r => exact ⟨r, rfl, lookup_newLivesOf_some ToLower s2 t2 k r hl⟩

/-- C3, at the baseline of the one record "alice" and the new primary record "ALICE" with
an empty secondary list: no callbacks, and the baseline becomes "alice" with the new
record. -/
theorem doStreamStatusCallbacks_case_insensitive_witness :
    (serverAlice.streams.Strims = some ⟨[]⟩ ∧ serverAlice.streams.Twitch = some ⟨[rec1]⟩ ∧
      ∀ k, k ∈ keysOf asciiToLower ⟨[]⟩ ⟨[rec1]⟩ ↔ k ∈ keysOf asciiToLower ⟨[]⟩ ⟨[rec1b]⟩) ∧
    (∃ bg1 trace1, doStreamStatusCallbacks asciiToLower serverAlice = .ok (bg1, trace1) ∧
      ∃ bg2, doStreamStatusCallbacks asciiToLower (bg1.withSnapshot ⟨[]⟩ ⟨[rec1b]⟩) =
          .ok (bg2, []) ∧
        bg2.lives = newLivesOf asciiToLower ⟨[]⟩ ⟨[rec1b]⟩ ∧
        ∀ k, k ∈ keysOf asciiToLower ⟨[]⟩ ⟨[rec1b]⟩ →
          ∃ r, bg2.lives.lookup k = some r ∧ r ∈ recordsOf ⟨[]⟩ ⟨[rec1b]⟩ ∧
            asciiToLower r.name = k) ∧
    (newLivesOf asciiToLower ⟨[]⟩ ⟨[rec1]⟩).entries = [⟨"alice", .twitch rec1⟩] ∧
    (newLivesOf asciiToLower ⟨[]⟩ ⟨[rec1b]⟩).entries = [⟨"alice", .twitch rec1b⟩] :=
  ⟨⟨rfl, rfl, fun _ => Iff.rfl⟩,
    doStreamStatusCallbacks_case_insensitive asciiToLower serverAlice ⟨[]⟩ ⟨[]⟩ ⟨[rec1]⟩
      ⟨[rec1b]⟩ rfl rfl (fun _ => Iff.rfl), rfl, rfl⟩

/-- A call of `onLive` in the two loops passes the record the new index holds for the key. -/
theorem lookup_of_onLive_mem (lives newLives : LiveMap) (k : String) (d : StreamData)
    (h : Event.onLive k d ∈ liveCalls lives newLives ++ offlineCalls lives newLives) :
    newLives.lookup k = some d := by
  simp only [liveCalls, offlineCalls, List.mem_append, List.mem_filterMap] at h
  rcases h with ⟨a, ha, hf⟩ | ⟨a, _, hf⟩
  · split at hf
    · obtain ⟨a1, a2⟩ := a
      simp only [Option.some.injEq, Event.onLive.injEq] at hf
      obtain ⟨rfl, rfl⟩ := hf
      exact AList.mem_lookup_iff.2 ha
    · cases hf
  · split at hf
    · cases hf
    · cases hf

/-- A call of `onOffline` in the two loops passes the record the baseline holds for the
key. -/
theorem lookup_of_onOffline_mem (lives newLives : LiveMap) (k : String) (d : StreamData)
    (h : Event.onOffline k d ∈ liveCalls lives newLives ++ offlineCalls lives newLives) :
    lives.lookup k = some d := by
  simp only [liveCalls, offlineCalls, List.mem_append, List.mem_filterMap] at h
  rcases h with ⟨a, _, hf⟩ | ⟨a, ha, hf⟩
  · split at hf
    · cases hf
    · cases hf
  · split at hf
    · obtain ⟨a1, a2⟩ := a
      simp only [Option.some.injEq, Event.onOffline.injEq] at hf
      obtain ⟨rfl, rfl⟩ := hf
      exact AList.mem_lookup_iff.2 ha
    · cases hf

/-- The events of a run are among the events of the two loops. -/
theorem mem_calls_of_mem_trace (init live off : Bool) (lives newLives : LiveMap) (e : Event)
    (h : e ∈ (if init then
        (if live then liveCalls lives newLives else []) ++
        (if off then offlineCalls lives newLives else [])
      else [])) :
    e ∈ liveCalls lives newLives ++ offlineCalls lives newLives := by
  cases init <;> cases live <;> cases off <;> simp at h ⊢ <;> simp [h]

/-- The events a run with an established baseline fires for one key. -/
theorem eventsFor_trace (live off : Bool) (lives newLives : LiveMap) (k : String) :
    eventsFor k ((if live then liveCalls lives newLives else []) ++
        (if off then offlineCalls lives newLives else [])) =
      (if live then
        (match newLives.lookup k, lives.lookup k with
          | some r, none => [Event.onLive k r]
          | _, _ => [])
        else []) ++
      (if off then
        (match newLives.lookup k, lives.lookup k with
          | none, some r => [Event.onOffline k r]
          | _, _ => [])
        else []) := by
  have hnil : eventsFor k [] = [] := rfl
  rw [eventsFor_append]
  cases live <;> cases off <;>
    simp [eventsFor_liveCalls, eventsFor_offlineCalls, hnil]

/-- C10, as the code has it: when a primary record and a secondary record have the same
normalised key, the index built by `doStreamStatusCallbacks` maps the key to a primary
(Twitch) record with that key, because the Twitch records are inserted after the Strims
records (when the key is unique in the primary list, it is the given primary record).
That record is stored in the baseline; it is the one passed to `onLive` for the key,
which is fired exactly once with it when a baseline without the key is established and
`onLive` is registered; and it is the one passed to `onOffline` for the key by the
following run, which fires exactly once with it when the next snapshot has lost the key
and `onOffline` is registered. -/
theorem doStreamStatusCallbacks_collision_primary_wins (ToLower : String → String)
    (bg : Server) (strims : StrimsStreams) (twitch : TwitchStreams)
    (t : TwitchStreamData) (s : StrimsStreamData) (k : String)
    (hS : bg.streams.Strims = some strims) (hT : bg.streams.Twitch = some twitch)
    (ht : t ∈ twitch.Data) (hs : s ∈ strims.Data)
    (hkt : ToLower t.UserName = k) (hks : ToLower s.Channel = k) :
    k ∈ keysOf ToLower strims ⟨[]⟩ ∧ k ∈ keysOf ToLower ⟨[]⟩ twitch ∧
    ∃ bg1 trace t1, doStreamStatusCallbacks ToLower bg = .ok (bg1, trace) ∧
      t1 ∈ twitch.Data ∧ ToLower t1.UserName = k ∧
      ((∀ t2 ∈ twitch.Data, ToLower t2.UserName = k → t2 = t) → t1 = t) ∧
      bg1.lives.lookup k = some (StreamData.twitch t1) ∧
      (∀ d, Event.onLive k d ∈ trace → d = StreamData.twitch t1) ∧
      (bg.hasInitStreams = true → bg.onLive = true → bg.lives.lookup k = none →
        eventsFor k trace = [Event.onLive k (StreamData.twitch t1)]) ∧
      ∀ (s2 : StrimsStreams) (t2 : TwitchStreams),
        ∃ bg2 trace2,
          doStreamStatusCallbacks ToLower (bg1.withSnapshot s2 t2) = .ok (bg2, trace2) ∧
          (∀ d, Event.onOffline k d ∈ trace2 → d = StreamData.twitch t1) ∧
          (bg.onOffline = true → k ∉ keysOf ToLower s2 t2 →
            eventsFor k trace2 = [Event.onOffline k (StreamData.twitch t1)]) := by
  have hmem : k ∈ twitch.Data.map (fun v => ToLower v.UserName) :=
    List.mem_map.2 ⟨t, ht, hkt⟩
  refine ⟨by simpa [keysOf] using ⟨s, hs, hks⟩, by simpa [keysOf] using ⟨t, ht, hkt⟩, ?_⟩
  obtain ⟨t1, ht1, hk1, hl⟩ := (lookup_newLivesOf ToLower strims twitch k).1 hmem
  obtain ⟨trace, hrun, htr⟩ := doStreamStatusCallbacks_ok ToLower bg strims twitch hS hT
  refine ⟨_, trace, t1, hrun, ht1, hk1, fun huniq => huniq t1 ht1 hk1, hl, ?_, ?_, ?_⟩
  · intro d hd
    rw [htr] at hd
    have := lookup_of_onLive_mem _ _ _ _ (mem_calls_of_mem_trace _ _ _ _ _ _ hd)
    rw [hl] at this
    cases this
    rfl
  · intro hI hL hB
    rw [htr, hI, if_pos rfl, eventsFor_trace, hL, hl, hB]
    cases bg.onOffline <;> simp
  · intro s2 t2
    obtain ⟨trace2, hrun2, htr2⟩ := doStreamStatusCallbacks_ok ToLower
      (Server.withSnapshot
        { bg with hasInitStreams := true, lives := newLivesOf ToLower strims twitch } s2 t2)
      s2 t2 rfl rfl
    refine ⟨_, trace2, hrun2, ?_, ?_⟩
    · intro d hd
      rw [htr2] at hd
      have := lookup_of_onOffline_mem _ _ _ _ (mem_calls_of_mem_trace _ _ _ _ _ _ hd)
      simp only [Server.withSnapshot] at this
      rw [hl] at this
      cases this
      rfl
    · intro hO hk2
      have hnone : (newLivesOf ToLower s2 t2).lookup k = none := by
        rw [AList.lookup_eq_none, mem_newLivesOf]
        simpa [keysOf] using hk2
      rw [htr2]
      simp only [Server.withSnapshot, if_true]
      rw [eventsFor_trace, hO, hnone, hl]
      cases bg.onLive <;> simp

/-- C10, at a running server with both callbacks whose snapshot has "Foo" on the primary
and "foo" on the secondary provider: `onLive` is fired for "foo" with the primary record,
and on a following empty snapshot `onOffline` is fired for "foo" with the primary
record. -/
theorem doStreamStatusCallbacks_collision_primary_wins_witness :
    (serverCollisionRunning.streams.Strims = some ⟨[recFooStrims]⟩ ∧
      serverCollisionRunning.streams.Twitch = some ⟨[recFooTwitch]⟩ ∧
      recFooTwitch ∈ (⟨[recFooTwitch]⟩ : TwitchStreams).Data ∧
      recFooStrims ∈ (⟨[recFooStrims]⟩ : StrimsStreams).Data ∧
      asciiToLower recFooTwitch.UserName = "foo" ∧ asciiToLower recFooStrims.Channel = "foo") ∧
    ("foo" ∈ keysOf asciiToLower ⟨[recFooStrims]⟩ ⟨[]⟩ ∧
      "foo" ∈ keysOf asciiToLower ⟨[]⟩ ⟨[recFooTwitch]⟩ ∧
      ∃ bg1 trace t1,
        doStreamStatusCallbacks asciiToLower serverCollisionRunning = .ok (bg1, trace) ∧
        t1 ∈ (⟨[recFooTwitch]⟩ : TwitchStreams).Data ∧ asciiToLower t1.UserName = "foo" ∧
        ((∀ t2 ∈ (⟨[recFooTwitch]⟩ : TwitchStreams).Data,
          asciiToLower t2.UserName = "foo" → t2 = recFooTwitch) → t1 = recFooTwitch) ∧
        bg1.lives.lookup "foo" = some (StreamData.twitch t1) ∧
        (∀ d, Event.onLive "foo" d ∈ trace → d = StreamData.twitch t1) ∧
        (serverCollisionRunning.hasInitStreams = true → serverCollisionRunning.onLive = true →
          serverCollisionRunning.lives.lookup "foo" = none →
          eventsFor "foo" trace = [Event.onLive "foo" (StreamData.twitch t1)]) ∧
        ∀ (s2 : StrimsStreams) (t2 : TwitchStreams),
          ∃ bg2 trace2,
            doStreamStatusCallbacks asciiToLower (bg1.withSnapshot s2 t2) = .ok (bg2, trace2) ∧
            (∀ d, Event.onOffline "foo" d ∈ trace2 → d = StreamData.twitch t1) ∧
            (serverCollisionRunning.onOffline = true → "foo" ∉ keysOf asciiToLower s2 t2 →
              eventsFor "foo" trace2 = [Event.onOffline "foo" (StreamData.twitch t1)])) ∧
    (serverCollisionRunning.hasInitStreams = true ∧ serverCollisionRunning.onLive = true ∧
      serverCollisionRunning.onOffline = true ∧
      serverCollisionRunning.lives.lookup "foo" = none) ∧
    doStreamStatusCallbacks asciiToLower serverCollisionRunning =
      .ok (serverCollisionAfter, [Event.onLive "foo" (StreamData.twitch recFooTwitch)]) ∧
    (doStreamStatusCallbacks asciiToLower (serverCollisionAfter.withSnapshot ⟨[]⟩ ⟨[]⟩)).map
        Prod.snd = .ok [Event.onOffline "foo" (StreamData.twitch recFooTwitch)] :=
  ⟨⟨rfl, rfl, List.mem_singleton.2 rfl, List.mem_singleton.2 rfl, rfl, rfl⟩,
    doStreamStatusCallbacks_collision_primary_wins asciiToLower serverCollisionRunning
      ⟨[recFooStrims]⟩ ⟨[recFooTwitch]⟩ recFooTwitch recFooStrims "foo" rfl rfl
      (List.mem_singleton.2 rfl) (List.mem_singleton.2 rfl) rfl rfl,
    ⟨rfl, rfl, rfl, rfl⟩, rfl, rfl⟩

/-- C10 as stated fails: with "Foo" on the primary and "foo" on the secondary provider,
both normalised to "foo", the baseline stored by `doStreamStatusCallbacks` maps "foo" to
the primary record, not to the secondary one. -/
theorem doStreamStatusCallbacks_collision_not_secondary :
    asciiToLower recFooTwitch.UserName = "foo" ∧ asciiToLower recFooStrims.Channel = "foo" ∧
    (doStreamStatusCallbacks asciiToLower serverCollision).map
        (fun r => r.1.lives.lookup "foo") = .ok (some (StreamData.twitch recFooTwitch)) ∧
    ¬ (doStreamStatusCallbacks asciiToLower serverCollision).map
        (fun r => r.1.lives.lookup "foo") = .ok (some (StreamData.strims recFooStrims)) := by
  refine ⟨rfl, rfl, rfl, ?_⟩
  have h : (doStreamStatusCallbacks asciiToLower serverCollision).map
      (fun r => r.1.lives.lookup "foo") = .ok (some (StreamData.twitch recFooTwitch)) := rfl
  rw [h]
  intro hc
  cases hc

/-! ## `GetLiveStreams` -/

/-- What the Strims part leaves untouched, and what it sets. -/
theorem fetchStrims_frame (w : World) (bg : Server) (trace : List Event) :
    (fetchStrims w bg trace).bg.authData = bg.authData ∧
    (fetchStrims w bg trace).bg.follows = bg.follows ∧
    (fetchStrims w bg trace).bg.streams.Twitch = bg.streams.Twitch ∧
    (fetchStrims w bg trace).bg.lives = bg.lives ∧
    (fetchStrims w bg trace).bg.hasInitStreams = bg.hasInitStreams ∧
    ((fetchStrims w bg trace).err = none →
      (fetchStrims w bg trace).bg.streams.LastFetched = w.timeNow) ∧
    ((fetchStrims w bg trace).bg.streams.LastFetched = bg.streams.LastFetched ∨
      (fetchStrims w bg trace).bg.streams.LastFetched = w.timeNow) := by
  unfold fetchStrims
  split
  · split <;> simp
  · simp

/-- The follow-list part leaves the snapshot, the baseline and the app token alone. -/
theorem fetchFollows_frame (w : World) (bg : Server) (ad : AuthData)
    (hAd : bg.authData = some ad) :
    (fetchFollows w bg ad).bg.streams = bg.streams ∧
    (fetchFollows w bg ad).bg.lives = bg.lives ∧
    (fetchFollows w bg ad).bg.hasInitStreams = bg.hasInitStreams ∧
    ∃ ad1, (fetchFollows w bg ad).bg.authData = some ad1 ∧
      ad1.AppAccessToken = ad.AppAccessToken := by
  unfold fetchFollows
  split
  · exact ⟨rfl, rfl, rfl, ad, hAd, rfl⟩
  · split
    · exact ⟨rfl, rfl, rfl, ad, hAd, rfl⟩
    · split
      · exact ⟨rfl, rfl, rfl, ad, hAd, rfl⟩
      · exact ⟨rfl, rfl, rfl, _, rfl, rfl⟩
      · exact ⟨rfl, rfl, rfl, ad, hAd, rfl⟩
      · exact ⟨rfl, rfl, rfl, ad, hAd, rfl⟩

/-- The stream part: `LastFetched` is set when it returns no error, and is never set to
anything but the time read at the end. -/
theorem fetchStreams_lastFetched (w : World) (bg : Server) (trace : List Event) (r : Outcome)
    (h : fetchStreams w bg trace = .ok r) :
    (r.err = none → r.bg.streams.LastFetched = w.timeNow) ∧
    (r.bg.streams.LastFetched = bg.streams.LastFetched ∨
      r.bg.streams.LastFetched = w.timeNow) ∧
    r.bg.lives = bg.lives ∧ r.bg.hasInitStreams = bg.hasInitStreams := by
  unfold fetchStreams at h
  split at h
  · cases h
  · split at h
    · cases h
    · split at h <;> cases h
      · exact ⟨(fetchStrims_frame w _ _).2.2.2.2.2.1, (fetchStrims_frame w _ _).2.2.2.2.2.2,
          (fetchStrims_frame w _ _).2.2.2.1, (fetchStrims_frame w _ _).2.2.2.2.1⟩
      · exact ⟨(fetchStrims_frame w _ _).2.2.2.2.2.1, (fetchStrims_frame w _ _).2.2.2.2.2.2,
          (fetchStrims_frame w _ _).2.2.2.1, (fetchStrims_frame w _ _).2.2.2.2.1⟩
      · exact ⟨by simp, Or.inl rfl, rfl, rfl⟩
      · exact ⟨(fetchStrims_frame w _ _).2.2.2.2.2.1, (fetchStrims_frame w _ _).2.2.2.2.2.2,
          (fetchStrims_frame w _ _).2.2.2.1, (fetchStrims_frame w _ _).2.2.2.2.1⟩

/-- The whole routine: `LastFetched` is set when it returns no error, and is never set to
anything but the time read at the end; the baseline is not touched. -/
theorem GetLiveStreams_frame (rf : Bool) (w : World) (bg : Server) (r : Outcome)
    (h : GetLiveStreams rf w bg = .ok r) :
    (r.err = none → r.bg.streams.LastFetched = w.timeNow) ∧
    (r.bg.streams.LastFetched = bg.streams.LastFetched ∨
      r.bg.streams.LastFetched = w.timeNow) ∧
    r.bg.lives = bg.lives ∧ r.bg.hasInitStreams = bg.hasInitStreams := by
  unfold GetLiveStreams at h
  split at h
  · split at h
    · cases h
    · rename_i ad hAd
      obtain ⟨hs, hl, hi, -⟩ := fetchFollows_frame w bg ad hAd
      simp only at h
      split at h
      · cases h
        exact ⟨by simp, Or.inl (by rw [hs]), hl, hi⟩
      · split at h
        · cases h
          exact ⟨by simp, Or.inl (by rw [hs]), hl, hi⟩
        · have := fetchStreams_lastFetched w _ _ r h
          rw [hs, hl, hi] at this
          exact this
  · exact fetchStreams_lastFetched w bg [] r h

/-- The app-token step leaves the user token alone and calls nothing but the app-token
fetch. -/
theorem refreshAppAccessToken_frame (w : World) (bg : Server) (ad : AuthData) :
    (refreshAppAccessToken w bg ad).1.UserAccessToken = ad.UserAccessToken ∧
    ∀ e ∈ (refreshAppAccessToken w bg ad).2, e = Event.fetchAppAccessToken := by
  unfold refreshAppAccessToken AuthData.FetchAppAccessToken
  split
  · split <;> simp
  · simp

/-- Without a user token and without a follow set, `GetLiveStreams` reports
Follows-Unavailable and changes nothing. -/
theorem GetLiveStreams_followsUnavailable (rf : Bool) (w : World) (bg : Server)
    (ad : AuthData) (hAd : bg.authData = some ad) (hU : ad.UserAccessToken = none)
    (hF : bg.follows = none) :
    GetLiveStreams rf w bg = .ok ⟨bg, some .followsUnavailable, []⟩ := by
  simp [GetLiveStreams, hF, hAd, fetchFollows, hU]

/-- A check cycle whose token steps end without a user token, on a server without a
follow set, is a soft no-op. -/
theorem check_soft_noop (ToLower : String → String) (rf : Bool) (w : World) (bg : Server)
    (ad ad2 : AuthData) (trace2 : List Event)
    (hAd : bg.authData = some ad) (hF : bg.follows = none)
    (hR : refreshUserAccessToken w bg (refreshAppAccessToken w bg ad).1 = (ad2, none, trace2))
    (hU : ad2.UserAccessToken = none) :
    check ToLower rf w bg =
      .ok ⟨{ bg with authData := some ad2 }, none,
        (refreshAppAccessToken w bg ad).2 ++ trace2⟩ := by
  unfold check
  simp only [hAd, hR]
  have hG := GetLiveStreams_followsUnavailable rf w (bg.SetAuthData ad2) ad2 rfl hU hF
  simp only [Server.SetAuthData] at hG
  rw [hG]
  simp

/-- A check cycle on a server without a user token and without a follow set is a soft
no-op. -/
theorem check_no_user_token (ToLower : String → String) (rf : Bool) (w : World) (bg : Server)
    (ad : AuthData) (hAd : bg.authData = some ad) (hU : ad.UserAccessToken = none)
    (hF : bg.follows = none) :
    ∃ r, check ToLower rf w bg = .ok r ∧ r.err = none ∧
      r.bg.streams = bg.streams ∧ r.bg.lives = bg.lives ∧
      r.bg.hasInitStreams = bg.hasInitStreams ∧
      (∀ e ∈ r.trace, e.isStreamFetch = false ∧ e.isCallback = false) := by
  have hfr := refreshAppAccessToken_frame w bg ad
  have hR : refreshUserAccessToken w bg (refreshAppAccessToken w bg ad).1 =
      ((refreshAppAccessToken w bg ad).1, none, []) := by
    simp [refreshUserAccessToken, hfr.1, hU]
  have hC := check_soft_noop ToLower rf w bg ad _ _ hAd hF hR (hfr.1.trans hU)
  refine ⟨_, hC, rfl, rfl, rfl, rfl, ?_⟩
  intro e he
  simp only [List.append_nil] at he
  rw [hfr.2 e he]
  exact ⟨rfl, rfl⟩

/-- C5: user-token degrade and the soft no-op cycle.  With a user token present and
expired and no follow set cached: when the refresh of the user token returns
Unauthorized, `check` returns no error, the user token is absent afterwards, the snapshot,
the baseline, its flag and the (absent) follow set are unchanged, and the cycle makes no
stream fetch and fires no callback; every following cycle from that state finds
`GetLiveStreams` reporting Follows-Unavailable and again returns no error with snapshot
and baseline unchanged.  When the refresh returns any other error, `check` returns that
error. -/
theorem check_user_token_degrade (ToLower : String → String) (rf : Bool) (w : World)
    (bg : Server) (ad : AuthData) (ut : Token)
    (hAd : bg.authData = some ad) (hU : ad.UserAccessToken = some ut)
    (hExp : ut.IsExpired w.nowUser bg.timer = true) (hF : bg.follows = none) :
    (w.RefreshUserAccessToken = .error .unauthorized →
      ∃ r ad1, check ToLower rf w bg = .ok r ∧ r.err = none ∧
        r.bg.authData = some ad1 ∧ ad1.UserAccessToken = none ∧
        r.bg.streams = bg.streams ∧ r.bg.lives = bg.lives ∧
        r.bg.hasInitStreams = bg.hasInitStreams ∧ r.bg.follows = none ∧
        (∀ e ∈ r.trace, e.isStreamFetch = false ∧ e.isCallback = false) ∧
        ∀ (ToLower2 : String → String) (rf2 : Bool) (w2 : World),
          (∃ g, GetLiveStreams rf2 w2 r.bg = .ok g ∧ g.err = some .followsUnavailable) ∧
          ∃ r2, check ToLower2 rf2 w2 r.bg = .ok r2 ∧ r2.err = none ∧
            r2.bg.streams = bg.streams ∧ r2.bg.lives = bg.lives ∧
            r2.bg.hasInitStreams = bg.hasInitStreams ∧
            (∀ e ∈ r2.trace, e.isStreamFetch = false ∧ e.isCallback = false)) ∧
    (∀ e, e ≠ GatewayError.unauthorized → w.RefreshUserAccessToken = .error e →
      ∃ r, check ToLower rf w bg = .ok r ∧ r.err = some (.gateway e)) := by
  have hfr := refreshAppAccessToken_frame w bg ad
  constructor
  · intro hUn
    have hR : refreshUserAccessToken w bg (refreshAppAccessToken w bg ad).1 =
        ({ (refreshAppAccessToken w bg ad).1 with UserAccessToken := none }, none,
          [.refreshUserAccessToken]) := by
      simp [refreshUserAccessToken, AuthData.RefreshUserAccessToken, hfr.1, hU, hExp, hUn]
    have hC := check_soft_noop ToLower rf w bg ad _ _ hAd hF hR rfl
    refine ⟨_, _, hC, rfl, rfl, rfl, rfl, rfl, rfl, hF, ?_, ?_⟩
    · intro e he
      simp only [List.mem_append, List.mem_singleton] at he
      rcases he with he | he
      · rw [hfr.2 e he]; exact ⟨rfl, rfl⟩
      · rw [he]; exact ⟨rfl, rfl⟩
    · intro ToLower2 rf2 w2
      exact ⟨⟨_, GetLiveStreams_followsUnavailable rf2 w2 _ _ rfl rfl hF, rfl⟩,
        check_no_user_token ToLower2 rf2 w2 _ _ rfl rfl hF⟩
  · intro e hne hE
    have hR : refreshUserAccessToken w bg (refreshAppAccessToken w bg ad).1 =
        ((refreshAppAccessToken w bg ad).1, some (.gateway e), [.refreshUserAccessToken]) := by
      cases e with
      | unauthorized => exact absurd rfl hne
      | deadlineExceeded => simp [refreshUserAccessToken, AuthData.RefreshUserAccessToken, hfr.1, hU, hExp, hE]
      | other msg => simp [refreshUserAccessToken, AuthData.RefreshUserAccessToken, hfr.1, hU, hExp, hE]
    refine ⟨⟨bg.SetAuthData (refreshAppAccessToken w bg ad).1, some (.gateway e),
      (refreshAppAccessToken w bg ad).2 ++ [.refreshUserAccessToken]⟩, ?_, rfl⟩
    unfold check
    simp only [hAd, hR, Server.SetAuthData]

/-- C5, at a configured server whose user token has expired, in a cycle whose refresh is
refused. -/
theorem check_user_token_degrade_witness :
    (serverExpiredUser.authData = some { adValid with UserAccessToken := some tokUserOld } ∧
      tokUserOld.IsExpired worldRefreshUnauthorized.nowUser serverExpiredUser.timer = true ∧
      serverExpiredUser.follows = none) ∧
    ((worldRefreshUnauthorized.RefreshUserAccessToken = .error .unauthorized →
      ∃ r ad1, check asciiToLower false worldRefreshUnauthorized serverExpiredUser = .ok r ∧
        r.err = none ∧ r.bg.authData = some ad1 ∧ ad1.UserAccessToken = none ∧
        r.bg.streams = serverExpiredUser.streams ∧ r.bg.lives = serverExpiredUser.lives ∧
        r.bg.hasInitStreams = serverExpiredUser.hasInitStreams ∧ r.bg.follows = none ∧
        (∀ e ∈ r.trace, e.isStreamFetch = false ∧ e.isCallback = false) ∧
        ∀ (ToLower2 : String → String) (rf2 : Bool) (w2 : World),
          (∃ g, GetLiveStreams rf2 w2 r.bg = .ok g ∧ g.err = some .followsUnavailable) ∧
          ∃ r2, check ToLower2 rf2 w2 r.bg = .ok r2 ∧ r2.err = none ∧
            r2.bg.streams = serverExpiredUser.streams ∧ r2.bg.lives = serverExpiredUser.lives ∧
            r2.bg.hasInitStreams = serverExpiredUser.hasInitStreams ∧
            (∀ e ∈ r2.trace, e.isStreamFetch = false ∧ e.isCallback = false)) ∧
    (∀ e, e ≠ GatewayError.unauthorized →
      worldRefreshUnauthorized.RefreshUserAccessToken = .error e →
      ∃ r, check asciiToLower false worldRefreshUnauthorized serverExpiredUser = .ok r ∧
        r.err = some (.gateway e))) ∧
    (check asciiToLower false worldRefreshUnauthorized serverExpiredUser).map
        (fun r => (r.err, r.bg.authData, r.trace)) =
      .ok (none, some { adValid with UserAccessToken := none }, [.refreshUserAccessToken]) :=
  ⟨⟨rfl, rfl, rfl⟩,
    check_user_token_degrade asciiToLower false worldRefreshUnauthorized serverExpiredUser
      { adValid with UserAccessToken := some tokUserOld } tokUserOld rfl rfl rfl rfl, rfl⟩

/-- The Strims part fires no callback. -/
theorem fetchStrims_no_callback (w : World) (bg : Server) (trace : List Event)
    (h : ∀ e ∈ trace, e.isCallback = false) :
    ∀ e ∈ (fetchStrims w bg trace).trace, e.isCallback = false := by
  unfold fetchStrims
  intro e he
  split at he
  · split at he <;>
    · simp only [List.mem_append, List.mem_singleton] at he
      rcases he with he | he
      · exact h e he
      · rw [he]; rfl
  · exact h e he

/-- The stream part fires no callback. -/
theorem fetchStreams_no_callback (w : World) (bg : Server) (trace : List Event) (r : Outcome)
    (h : ∀ e ∈ trace, e.isCallback = false) (hr : fetchStreams w bg trace = .ok r) :
    ∀ e ∈ r.trace, e.isCallback = false := by
  have h1 : ∀ e ∈ trace ++ [Event.getLiveTwitchStreams], e.isCallback = false := by
    intro e he
    simp only [List.mem_append, List.mem_singleton] at he
    rcases he with he | he
    · exact h e he
    · rw [he]; rfl
  unfold fetchStreams at hr
  split at hr
  · cases hr
  · split at hr
    · cases hr
    · split at hr <;> cases hr
      · exact fetchStrims_no_callback w _ _ h1
      · exact fetchStrims_no_callback w _ _ h1
      · exact h1
      · exact fetchStrims_no_callback w _ _ h1

/-- The follow-list part fires no callback. -/
theorem fetchFollows_no_callback (w : World) (bg : Server) (ad : AuthData) :
    ∀ e ∈ (fetchFollows w bg ad).trace, e.isCallback = false := by
  unfold fetchFollows
  intro e he
  split at he
  · cases he
  · split at he
    · cases he
    · split at he <;>
      · simp only [List.mem_singleton] at he
        rw [he]; rfl

/-- The routine `GetLiveStreams` fires no callback. -/
theorem GetLiveStreams_no_callback (rf : Bool) (w : World) (bg : Server) (r : Outcome)
    (hr : GetLiveStreams rf w bg = .ok r) : ∀ e ∈ r.trace, e.isCallback = false := by
  unfold GetLiveStreams at hr
  split at hr
  · split at hr
    · cases hr
    · rename_i ad hAd
      simp only at hr
      split at hr
      · cases hr
        exact fetchFollows_no_callback w bg ad
      · split at hr
        · cases hr
          exact fetchFollows_no_callback w bg ad
        · exact fetchStreams_no_callback w _ _ r (fetchFollows_no_callback w bg ad) hr
  · exact fetchStreams_no_callback w bg [] r (by simp) hr

/-- The user-token step fires no callback. -/
theorem refreshUserAccessToken_no_callback (w : World) (bg : Server) (ad : AuthData) :
    ∀ e ∈ (refreshUserAccessToken w bg ad).2.2, e.isCallback = false := by
  unfold refreshUserAccessToken
  intro e he
  split at he
  · cases he
  · split at he
    · split at he <;>
      · simp only [List.mem_singleton] at he
        rw [he]; rfl
    · cases he

/-- A check cycle on a server without a baseline fires no callback. -/
theorem check_no_callback_without_baseline (ToLower : String → String) (rf : Bool)
    (w : World) (bg : Server) (r : Outcome) (hInit : bg.hasInitStreams = false)
    (h : check ToLower rf w bg = .ok r) : ∀ e ∈ r.trace, e.isCallback = false := by
  unfold check at h
  split at h
  · cases h
  · rename_i ad hAd
    simp only at h
    have hA : ∀ e ∈ (refreshAppAccessToken w bg ad).2 ++
        (refreshUserAccessToken w bg (refreshAppAccessToken w bg ad).1).2.2,
        e.isCallback = false := by
      intro e he
      simp only [List.mem_append] at he
      rcases he with he | he
      · rw [(refreshAppAccessToken_frame w bg ad).2 e he]; rfl
      · exact refreshUserAccessToken_no_callback w bg _ e he
    split at h
    · cases h
      exact hA
    · split at h
      · cases h
      · rename_i r1 hG
        have hG1 := GetLiveStreams_no_callback rf w _ r1 hG
        have hI1 : r1.bg.hasInitStreams = false :=
          ((GetLiveStreams_frame rf w _ r1 hG).2.2.2).trans hInit
        have hB : ∀ e ∈ (refreshAppAccessToken w bg ad).2 ++
            (refreshUserAccessToken w bg (refreshAppAccessToken w bg ad).1).2.2 ++ r1.trace,
            e.isCallback = false := by
          intro e he
          rw [List.mem_append] at he
          rcases he with he | he
          · exact hA e he
          · exact hG1 e he
        split at h
        · cases h; exact hB
        · cases h; exact hB
        · split at h
          · split at h
            · cases h
            · rename_i bg2 calls hD
              cases h
              have hc : calls = [] := by
                unfold doStreamStatusCallbacks at hD
                split at hD
                · cases hD
                · split at hD
                  · cases hD
                  · simp only [hI1] at hD
                    cases hD
                    rfl
              rw [hc, List.append_nil]
              exact hB
          · cases h; exact hB

/-- The Strims part leaves the callbacks alone. -/
theorem fetchStrims_flags (w : World) (bg : Server) (trace : List Event) :
    (fetchStrims w bg trace).bg.onLive = bg.onLive ∧
    (fetchStrims w bg trace).bg.onOffline = bg.onOffline := by
  unfold fetchStrims
  split
  · split <;> simp
  · simp

/-- The follow-list part leaves the callbacks alone. -/
theorem fetchFollows_flags (w : World) (bg : Server) (ad : AuthData) :
    (fetchFollows w bg ad).bg.onLive = bg.onLive ∧
    (fetchFollows w bg ad).bg.onOffline = bg.onOffline := by
  unfold fetchFollows
  split
  · exact ⟨rfl, rfl⟩
  · split
    · exact ⟨rfl, rfl⟩
    · split <;> exact ⟨rfl, rfl⟩

/-- The stream part leaves the callbacks alone. -/
theorem fetchStreams_flags (w : World) (bg : Server) (trace : List Event) (r : Outcome)
    (h : fetchStreams w bg trace = .ok r) :
    r.bg.onLive = bg.onLive ∧ r.bg.onOffline = bg.onOffline := by
  unfold fetchStreams at h
  split at h
  · cases h
  · split at h
    · cases h
    · split at h <;> cases h
      · exact fetchStrims_flags w _ _
      · exact fetchStrims_flags w _ _
      · exact ⟨rfl, rfl⟩
      · exact fetchStrims_flags w _ _

/-- The routine `GetLiveStreams` leaves the callbacks alone. -/
theorem GetLiveStreams_flags (rf : Bool) (w : World) (bg : Server) (r : Outcome)
    (h : GetLiveStreams rf w bg = .ok r) :
    r.bg.onLive = bg.onLive ∧ r.bg.onOffline = bg.onOffline := by
  unfold GetLiveStreams at h
  split at h
  · split at h
    · cases h
    · rename_i ad hAd
      have hf := fetchFollows_flags w bg ad
      simp only at h
      split at h
      · cases h
        exact hf
      · split at h
        · cases h
          exact hf
        · have := fetchStreams_flags w _ _ r h
          rw [hf.1, hf.2] at this
          exact this
  · exact fetchStreams_flags w bg [] r h

/-- With no callback registered a check cycle does not touch the baseline or its flag. -/
theorem check_frame_without_callback (ToLower : String → String) (rf : Bool) (w : World)
    (bg : Server) (r : Outcome) (hCb : (bg.onLive || bg.onOffline) = false)
    (h : check ToLower rf w bg = .ok r) :
    r.bg.hasInitStreams = bg.hasInitStreams ∧ r.bg.lives = bg.lives := by
  unfold check at h
  split at h
  · cases h
  · simp only at h
    split at h
    · cases h
      exact ⟨rfl, rfl⟩
    · split at h
      · cases h
      · rename_i r1 hG
        have hfr := (GetLiveStreams_frame rf w _ r1 hG).2.2
        have hfl := GetLiveStreams_flags rf w _ r1 hG
        have hCb1 : (r1.bg.onLive || r1.bg.onOffline) = false := by
          rw [hfl.1, hfl.2]
          exact hCb
        split at h
        · cases h; exact ⟨hfr.2, hfr.1⟩
        · cases h; exact ⟨hfr.2, hfr.1⟩
        · rw [hCb1] at h
          simp only [Bool.false_eq_true, if_false] at h
          cases h
          exact ⟨hfr.2, hfr.1⟩

/-- C2, as the code has it: the edge detector runs only when a callback is registered.
On a server without a baseline (as `NewServer` leaves it), a check cycle whose token
steps return no error and whose `GetLiveStreams` returns no error with both record lists
present returns no error and fires no callback; when at least one of `onLive` and
`onOffline` is registered it sets `hasInitStreams` and stores as `lives` the index of the
snapshot just fetched, and when none is registered it leaves `hasInitStreams` unset and
`lives` as it was.  Whatever the gateway returns, a check cycle on a server without a
baseline fires no callback; and on every server on which no callback is registered, a
check cycle leaves `hasInitStreams` and `lives` unchanged. -/
theorem check_first_cycle_baseline (ToLower : String → String) (rf : Bool) (w : World)
    (bg : Server) (ad : AuthData) (strims : StrimsStreams) (twitch : TwitchStreams)
    (hAd : bg.authData = some ad) (hInit : bg.hasInitStreams = false)
    (hTok : (tokenSteps w bg ad).2.1 = none)
    (hG : (GetLiveStreams rf w (bg.SetAuthData (tokenSteps w bg ad).1)).map
        (fun g => (g.err, g.bg.streams.Strims, g.bg.streams.Twitch)) =
      .ok (none, some strims, some twitch)) :
    (∃ r, check ToLower rf w bg = .ok r ∧ r.err = none ∧
      (∀ e ∈ r.trace, e.isCallback = false) ∧
      r.bg.streams.Strims = some strims ∧ r.bg.streams.Twitch = some twitch ∧
      ((bg.onLive || bg.onOffline) = true →
        r.bg.hasInitStreams = true ∧ r.bg.lives = newLivesOf ToLower strims twitch) ∧
      ((bg.onLive || bg.onOffline) = false →
        r.bg.hasInitStreams = false ∧ r.bg.lives = bg.lives)) ∧
    (∀ (ToLower1 : String → String) (rf1 : Bool) (w1 : World) (r1 : Outcome),
      check ToLower1 rf1 w1 bg = .ok r1 → ∀ e ∈ r1.trace, e.isCallback = false) ∧
    (∀ (ToLower1 : String → String) (rf1 : Bool) (w1 : World) (bg1 : Server) (r1 : Outcome),
      (bg1.onLive || bg1.onOffline) = false → check ToLower1 rf1 w1 bg1 = .ok r1 →
      r1.bg.hasInitStreams = bg1.hasInitStreams ∧ r1.bg.lives = bg1.lives) := by
  refine ⟨?_, fun ToLower1 rf1 w1 r1 h =>
    check_no_callback_without_baseline ToLower1 rf1 w1 bg r1 hInit h,
    fun ToLower1 rf1 w1 bg1 r1 hCb h => check_frame_without_callback ToLower1 rf1 w1 bg1 r1 hCb h⟩
  have hC : ∃ r, check ToLower rf w bg = .ok r ∧ r.err = none ∧
      r.bg.streams.Strims = some strims ∧ r.bg.streams.Twitch = some twitch ∧
      ((bg.onLive || bg.onOffline) = true →
        r.bg.hasInitStreams = true ∧ r.bg.lives = newLivesOf ToLower strims twitch) ∧
      ((bg.onLive || bg.onOffline) = false →
        r.bg.hasInitStreams = false ∧ r.bg.lives = bg.lives) := by
    cases hGe : GetLiveStreams rf w (bg.SetAuthData (tokenSteps w bg ad).1) with
    | error f =>
      rw [hGe] at hG
      cases hG
    | ok g =>
      rw [hGe] at hG
      simp only [Except.map, Except.ok.injEq, Prod.mk.injEq] at hG
      obtain ⟨hErr, hS, hT⟩ := hG
      have hfr := (GetLiveStreams_frame rf w _ g hGe).2.2
      have hfl := GetLiveStreams_flags rf w _ g hGe
      simp only [Server.SetAuthData] at hfr hfl hGe
      have hI : g.bg.hasInitStreams = false := hfr.2.trans hInit
      simp only [tokenSteps] at hTok hGe
      unfold check
      simp only [hAd, hTok, hGe, hErr]
      cases hCb : (bg.onLive || bg.onOffline)
      · have hCb1 : (g.bg.onLive || g.bg.onOffline) = false := by
          rw [hfl.1, hfl.2]; exact hCb
        rw [hCb1]
        simp only [Bool.false_eq_true, if_false]
        refine ⟨_, rfl, rfl, hS, hT, ?_, ?_⟩
        · intro h
          simp at h
        · intro _
          exact ⟨hI, hfr.1⟩
      · have hCb1 : (g.bg.onLive || g.bg.onOffline) = true := by
          rw [hfl.1, hfl.2]; exact hCb
        rw [hCb1]
        obtain ⟨tr, hD, htr⟩ := doStreamStatusCallbacks_ok ToLower g.bg strims twitch hS hT
        simp only [if_true, hD]
        refine ⟨_, rfl, rfl, hS, hT, ?_, ?_⟩
        · intro _
          exact ⟨rfl, rfl⟩
        · intro h
          simp at h
  obtain ⟨r, hr, he, hrest⟩ := hC
  exact ⟨r, hr, he, check_no_callback_without_baseline ToLower rf w bg r hInit hr, hrest⟩

/-- C2, at a freshly configured server with a live callback in a cycle in which every
gateway call succeeds, and at the same server with an expired user token that the cycle
refreshes. -/
theorem check_first_cycle_baseline_witness :
    (serverWithCallback.authData = some adValid ∧
      serverWithCallback.hasInitStreams = false ∧
      (serverWithCallback.onLive || serverWithCallback.onOffline) = true ∧
      (tokenSteps worldOk serverWithCallback adValid).2.1 = none ∧
      (GetLiveStreams false worldOk
          (serverWithCallback.SetAuthData (tokenSteps worldOk serverWithCallback adValid).1)).map
          (fun g => (g.err, g.bg.streams.Strims, g.bg.streams.Twitch)) =
        .ok (none, some ⟨[recFooStrims]⟩, some ⟨[rec1]⟩)) ∧
    ((∃ r, check asciiToLower false worldOk serverWithCallback = .ok r ∧ r.err = none ∧
      (∀ e ∈ r.trace, e.isCallback = false) ∧
      r.bg.streams.Strims = some ⟨[recFooStrims]⟩ ∧ r.bg.streams.Twitch = some ⟨[rec1]⟩ ∧
      ((serverWithCallback.onLive || serverWithCallback.onOffline) = true →
        r.bg.hasInitStreams = true ∧
        r.bg.lives = newLivesOf asciiToLower ⟨[recFooStrims]⟩ ⟨[rec1]⟩) ∧
      ((serverWithCallback.onLive || serverWithCallback.onOffline) = false →
        r.bg.hasInitStreams = false ∧ r.bg.lives = serverWithCallback.lives)) ∧
    (∀ (ToLower1 : String → String) (rf1 : Bool) (w1 : World) (r1 : Outcome),
      check ToLower1 rf1 w1 serverWithCallback = .ok r1 →
      ∀ e ∈ r1.trace, e.isCallback = false) ∧
    (∀ (ToLower1 : String → String) (rf1 : Bool) (w1 : World) (bg1 : Server) (r1 : Outcome),
      (bg1.onLive || bg1.onOffline) = false → check ToLower1 rf1 w1 bg1 = .ok r1 →
      r1.bg.hasInitStreams = bg1.hasInitStreams ∧ r1.bg.lives = bg1.lives)) ∧
    (check asciiToLower false worldOk serverWithCallback).map
        (fun r => (r.err, r.bg.hasInitStreams, r.bg.lives.entries, r.trace)) =
      .ok (none, true, [⟨"alice", .twitch rec1⟩, ⟨"foo", .strims recFooStrims⟩],
        [.getTwitchFollows, .getLiveTwitchStreams, .getLiveStrimsStreams]) ∧
    (tokUserOld.IsExpired worldOk.nowUser serverExpiredUserCallback.timer = true ∧
      (tokenSteps worldOk serverExpiredUserCallback
        { adValid with UserAccessToken := some tokUserOld }).2.1 = none) ∧
    (check asciiToLower false worldOk serverExpiredUserCallback).map
        (fun r => (r.err, r.bg.hasInitStreams, r.bg.lives.entries, r.trace)) =
      .ok (none, true, [⟨"alice", .twitch rec1⟩, ⟨"foo", .strims recFooStrims⟩],
        [.refreshUserAccessToken, .getTwitchFollows, .getLiveTwitchStreams,
          .getLiveStrimsStreams]) :=
  ⟨⟨rfl, rfl, rfl, rfl, rfl⟩,
    check_first_cycle_baseline asciiToLower false worldOk serverWithCallback adValid
      ⟨[recFooStrims]⟩ ⟨[rec1]⟩ rfl rfl rfl rfl,
    rfl, ⟨rfl, rfl⟩, rfl⟩

/-- C2 as stated fails: on the server as `main` configures it (no callback registered),
the first check cycle fetches a snapshot with two records and returns no error, but the
has-baseline flag stays unset and `lives` stays empty instead of becoming the index of
the fetched snapshot. -/
theorem check_first_cycle_without_callback_no_baseline :
    (check asciiToLower false worldOk serverMain).map
        (fun r => (r.err, r.bg.hasInitStreams, r.bg.lives.entries, r.bg.streams.Strims,
          r.bg.streams.Twitch)) =
      .ok (none, false, [], some ⟨[recFooStrims]⟩, some ⟨[rec1]⟩) ∧
    (newLivesOf asciiToLower ⟨[recFooStrims]⟩ ⟨[rec1]⟩).entries =
      [⟨"alice", .twitch rec1⟩, ⟨"foo", .strims recFooStrims⟩] ∧
    ¬ ∃ r, check asciiToLower false worldOk serverMain = .ok r ∧
      r.bg.hasInitStreams = true ∧
      r.bg.lives = newLivesOf asciiToLower ⟨[recFooStrims]⟩ ⟨[rec1]⟩ := by
  have h1 : (check asciiToLower false worldOk serverMain).map
      (fun r => (r.err, r.bg.hasInitStreams, r.bg.lives.entries, r.bg.streams.Strims,
        r.bg.streams.Twitch)) =
      .ok (none, false, [], some ⟨[recFooStrims]⟩, some ⟨[rec1]⟩) := rfl
  refine ⟨h1, rfl, ?_⟩
  rintro ⟨r, hr, hi, -⟩
  rw [hr] at h1
  simp only [Except.map, Except.ok.injEq, Prod.mk.injEq] at h1
  rw [hi] at h1
  exact absurd h1.2.1 (by decide)

/-- C7 fails on the code: with a follow set cached, a valid user token and a forced
refresh, a follow-list fetch that times out and returns no value leaves the server
without a follow set, and the routine reports Follows-Unavailable without making a
stream fetch. -/
theorem GetLiveStreams_follows_timeout_drops_follows :
    serverRunning.follows = some followsX ∧
    serverRunning.authData = some adValid ∧ adValid.UserAccessToken = some tokUser ∧
    tokUser.IsExpired worldFollowsTimeout.nowFollows serverRunning.timer = false ∧
    worldFollowsTimeout.GetTwitchFollows.err = some .deadlineExceeded ∧
    (GetLiveStreams true worldFollowsTimeout serverRunning).map
        (fun r => (r.bg.follows, r.err, r.trace)) =
      .ok (none, some .followsUnavailable, [.getTwitchFollows]) :=
  ⟨rfl, rfl, rfl, rfl, rfl, rfl⟩

/-- C8 fails on the code: on a freshly configured server with a live callback, a first
cycle whose only failure is a DeadlineExceeded of the primary fetch ends in a nil
dereference in the edge detector, and so does a fully successful first cycle with the
secondary provider disabled. -/
theorem check_first_cycle_soft_failure_panics :
    worldPrimaryTimeout.GetTwitchFollows.err = none ∧
    worldPrimaryTimeout.GetLiveTwitchStreams.err = some .deadlineExceeded ∧
    worldPrimaryTimeout.GetLiveStrimsStreams.err = none ∧
    (GetLiveStreams false worldPrimaryTimeout serverWithCallback).map
        (fun r => (r.err, r.bg.streams.Strims, r.bg.streams.Twitch)) =
      .ok (none, some ⟨[recFooStrims]⟩, none) ∧
    check asciiToLower false worldPrimaryTimeout serverWithCallback =
      .error .nilPointerDereference ∧
    check asciiToLower false worldOk serverNoStrims =
      .error .nilPointerDereference :=
  ⟨rfl, rfl, rfl, rfl, rfl, rfl⟩

/-- C9 fails on the code: a refused primary fetch clears the app token; in the next
cycle a failing app-token fetch leaves it absent, and reading its access value for the
primary fetch is a nil dereference. -/
theorem check_absent_app_token_panics :
    (check asciiToLower false worldPrimaryUnauthorized serverRunning).map
        (fun r => (r.err, r.bg.authData, r.bg.follows)) =
      .ok (none, serverNoAppToken.authData, serverNoAppToken.follows) ∧
    serverNoAppToken.follows = some followsX ∧
    serverNoAppToken.authData = some { adValid with AppAccessToken := none } ∧
    worldAppFetchFails.FetchAppAccessToken = .error (.other "connection refused") ∧
    check asciiToLower false worldAppFetchFails serverNoAppToken =
      .error .nilPointerDereference :=
  ⟨rfl, rfl, rfl, rfl, rfl⟩

end Streamserver
